import Mathlib

/-!
Verification development for the HTLC module (irismod/htlc).

Shallow embedding of:
  - types/genesis.go : GenesisState, DefaultGenesisState, ValidateGenesis
  - client/cli/tx.go : GetCmdCreateHTLC run function and preCheckCmd

Go strings are modelled as List Char, byte strings as List Nat
(each element < 256), and Go maps as association lists in one
iteration order (Go map range order is unspecified and randomized,
so a single execution corresponds to one permutation of the entries).
-/

namespace HTLCSpec

/-! ### Byte-level constants

HashLockLength and SecretLength live in types code that is not part of
the provided sources; the values (32 bytes, SHA-256 digest size) are the
ones the spec relies on throughout. -/

/-- Modelled from the spec: HashLockLength, the fixed byte length of a
hash lock digest (types constant absent from the provided sources). -/
def HashLockLength : Nat := 32

/-- Modelled from the spec: SecretLength, the fixed byte length of a
secret (types constant absent from the provided sources). -/
def SecretLength : Nat := 32

/-! ### encoding/hex

Faithful model of Go encoding/hex.Decode as called through
hex.DecodeString: the decoder walks the input two characters at a time,
reports an invalid byte as soon as it sees one, and reports an odd
length only after checking the dangling character for validity. -/

inductive HexError where
  | invalidByte (c : Char)
  | errLength
deriving DecidableEq, Repr

def fromHexChar (c : Char) : Option Nat :=
  if '0' ≤ c ∧ c ≤ '9' then some (c.toNat - '0'.toNat)
  else if 'a' ≤ c ∧ c ≤ 'f' then some (c.toNat - 'a'.toNat + 10)
  else if 'A' ≤ c ∧ c ≤ 'F' then some (c.toNat - 'A'.toNat + 10)
  else none

def hexDecode : List Char → Except HexError (List Nat)
  | [] => .ok []
  | [c] =>
    match fromHexChar c with
    | none => .error (.invalidByte c)
    | some _ => .error .errLength
  | a :: b :: rest =>
    match fromHexChar a with
    | none => .error (.invalidByte a)
    | some hi =>
      match fromHexChar b with
      | none => .error (.invalidByte b)
      | some lo =>
        match hexDecode rest with
        | .error e => .error e
        | .ok bs => .ok ((hi * 16 + lo) :: bs)

instance {ε α : Type} [DecidableEq ε] [DecidableEq α] :
    DecidableEq (Except ε α) := fun x y =>
  match x, y with
  | .error a, .error b =>
    match decEq a b with
    | isTrue h => isTrue (h ▸ rfl)
    | isFalse h => isFalse fun hc => h (Except.error.inj hc)
  | .ok a, .ok b =>
    match decEq a b with
    | isTrue h => isTrue (h ▸ rfl)
    | isFalse h => isFalse fun hc => h (Except.ok.inj hc)
  | .error _, .ok _ => isFalse fun hc => Except.noConfusion hc
  | .ok _, .error _ => isFalse fun hc => Except.noConfusion hc

def toHexChar (n : Nat) : Char :=
  if n < 10 then Char.ofNat ('0'.toNat + n) else Char.ofNat ('a'.toNat + n - 10)

def hexEncode : List Nat → List Char
  | [] => []
  | b :: rest => toHexChar (b / 16) :: toHexChar (b % 16) :: hexEncode rest

/-! ### The HTLC entity

The HTLC struct itself is declared in types code that is not among the
provided sources; genesis.go only consumes htlc.State and
htlc.Validate(). The record and its Validate are modelled from the spec
(section 3 attributes and section 4.2 entity validation). -/

inductive HTLCState where
  | Open
  | Completed
  | Expired
  | Refunded
deriving DecidableEq, Repr

structure Coin where
  denom : String
  amount : Int
deriving DecidableEq, Repr

structure HTLC where
  sender : String
  To : String
  receiverOnOtherChain : String
  amount : List Coin
  secret : List Nat
  timestamp : Nat
  timeLock : Nat
  expirationHeight : Nat
  state : HTLCState
deriving DecidableEq, Repr

inductive EntityError where
  | invalidAddress
  | invalidAmount
  | invalidTimeLock
deriving DecidableEq, Repr

/-- Modelled from the spec: HTLC.Validate checks the entity-level
invariants of section 3 (addresses present, amount non-empty with every
quantity strictly positive, time lock strictly positive) and fails with
the kind of the first violated field. The Go method is in types code
absent from the provided sources. -/
def HTLC.Validate (h : HTLC) : Option EntityError :=
  if h.sender = "" then some .invalidAddress
  else if h.To = "" then some .invalidAddress
  else if h.amount = [] then some .invalidAmount
  else if h.amount.any (fun c => c.amount ≤ 0) then some .invalidAmount
  else if h.timeLock = 0 then some .invalidTimeLock
  else none

/-! ### types/genesis.go -/

/-- GenesisState: pendingHTLCs models the Go map PendingHTLCs as an
association list holding the entries in one iteration order. -/
structure GenesisState where
  pendingHTLCs : List (List Char × HTLC)
deriving DecidableEq, Repr

def NewGenesisState (pendingHTLCs : List (List Char × HTLC)) : GenesisState :=
  ⟨pendingHTLCs⟩

def DefaultGenesisState : GenesisState := ⟨[]⟩

/-- The possible errors of ValidateGenesis: the raw hex decoding error,
the wrapped ErrInvalidHashLock, the wrapped ErrHTLCNotOpen (carrying the
offending key, as sdkerrors.Wrap does), or the error of htlc.Validate. -/
inductive GenesisError where
  | hexError (e : HexError)
  | invalidHashLock
  | htlcNotOpen (key : List Char)
  | entityError (e : EntityError)
deriving DecidableEq, Repr

/-- The body of the range loop of ValidateGenesis, entry by entry. -/
def validateEntries : List (List Char × HTLC) → Option GenesisError
  | [] => none
  | (hashLockStr, htlc) :: rest =>
    match hexDecode hashLockStr with
    | .error e => some (.hexError e)
    | .ok hashLock =>
      if hashLock.length ≠ HashLockLength then some .invalidHashLock
      else if htlc.state ≠ .Open then some (.htlcNotOpen hashLockStr)
      else
        match htlc.Validate with
        | some e => some (.entityError e)
        | none => validateEntries rest

def ValidateGenesis (data : GenesisState) : Option GenesisError :=
  validateEntries data.pendingHTLCs

/-- The per-entry check of ValidateGenesis as a Boolean predicate:
the key is valid hex of exactly HashLockLength decoded bytes, the state
is Open, and the entity validates. -/
def genesisEntryOk (p : List Char × HTLC) : Bool :=
  match hexDecode p.1 with
  | .error _ => false
  | .ok hashLock =>
    hashLock.length == HashLockLength && p.2.state == .Open && p.2.Validate == none

/-- The error the per-entry check of ValidateGenesis produces on the
given entry, none if the entry passes. -/
def genesisEntryError (p : List Char × HTLC) : Option GenesisError :=
  match hexDecode p.1 with
  | .error e => some (.hexError e)
  | .ok hashLock =>
    if hashLock.length ≠ HashLockLength then some .invalidHashLock
    else if p.2.state ≠ .Open then some (.htlcNotOpen p.1)
    else
      match p.2.Validate with
      | some e => some (.entityError e)
      | none => none

/-! ### The HashLock codec and the create message

GetHashLock, NewMsgCreateHTLC and MsgCreateHTLC.ValidateBasic are types
code absent from the provided sources; they are modelled from the spec
(section 4.1 codec, section 4.4 create handler). -/

/-- Modelled from the spec: GetHashLock, the Codec derivation
Hash(secret concatenated with timestamp). The real implementation is a
collision-resistant hash (SHA-256); the model is a deterministic
stand-in digest of the same fixed length HashLockLength, which is all
the CLI claims depend on. -/
def GetHashLock (secret : List Nat) (timestamp : Nat) : List Nat :=
  (List.range HashLockLength).map fun i =>
    secret.foldl (fun acc b => (acc * 131 + b) % 256) ((timestamp + i) % 256)

structure MsgCreateHTLC where
  sender : String
  To : String
  receiverOnOtherChain : String
  amount : List Coin
  hashLock : List Nat
  timestamp : Nat
  timeLock : Nat
deriving DecidableEq, Repr

/-- Modelled from the spec: the NewMsgCreateHTLC constructor (types code
absent from the provided sources), a plain record constructor. -/
def NewMsgCreateHTLC (sender To receiverOnOtherChain : String)
    (amount : List Coin) (hashLock : List Nat) (timestamp timeLock : Nat) :
    MsgCreateHTLC :=
  ⟨sender, To, receiverOnOtherChain, amount, hashLock, timestamp, timeLock⟩

inductive MsgError where
  | invalidAmount
  | invalidTimeLock
deriving DecidableEq, Repr

/-- Modelled from the spec: MsgCreateHTLC.ValidateBasic (types code
absent from the provided sources); section 4.4 says the create handler
validates amount and time lock: amount non-empty with strictly positive
quantities, time lock strictly positive. -/
def MsgCreateHTLC.ValidateBasic (m : MsgCreateHTLC) : Option MsgError :=
  if m.amount = [] then some .invalidAmount
  else if m.amount.any (fun c => c.amount ≤ 0) then some .invalidAmount
  else if m.timeLock = 0 then some .invalidTimeLock
  else none

/-! ### client/cli/tx.go : the create command -/

/-- Go conversion uint64(v) of an int64 value v: reduction modulo 2^64
(two's-complement reinterpretation). -/
def goUInt64OfInt64 (v : Int) : Nat := (v % (2 : Int) ^ 64).toNat

/-- crypto/rand.Read filling an n-byte buffer: the entropy oracle gives
the random bytes; the buffer is always filled completely. -/
def randRead (n : Nat) (entropy : Nat → Nat) : List Nat :=
  (List.range n).map fun i => entropy i % 256

/-- The flag state of one invocation of the create command.
String-valued flags hold their value after strings.TrimSpace; the
Changed fields are pflag FlagSet.Changed. The to address and the amount
are taken already parsed (bech32 and coin parsing are cosmos-sdk
collaborators outside this repository); timestamp and timeLock are the
raw viper.GetInt64 values. -/
structure CreateFlags where
  sender : String
  To : String
  receiverOnOtherChain : String
  amount : List Coin
  timestamp : Int
  timeLock : Int
  secretChanged : Bool
  secretStr : List Char
  hashLockChanged : Bool
  hashLockStr : List Char
deriving Repr

inductive CLIError where
  | bothSecretAndHashLock
  | hexError (e : HexError)
  | invalidSecretLength
  | msgError (e : MsgError)
  | broadcastError
deriving DecidableEq, Repr

/-- The lines the create command prints on success when the hash lock
flag was not set: two warning lines, a blank line, and the line carrying
the hex secret and hex hash lock. -/
inductive OutputLine where
  | warning1
  | warning2
  | blankLine
  | secretAndHashLock (secretHex hashLockHex : List Char)
deriving DecidableEq, Repr

def isSecretOutput : OutputLine → Bool
  | .secretAndHashLock _ _ => true
  | _ => false

/-- preCheckCmd of tx.go: rejects an invocation that sets both the
secret and the hash lock flag. -/
def preCheckCmd (secretChanged hashLockChanged : Bool) : Option CLIError :=
  if secretChanged && hashLockChanged then some .bothSecretAndHashLock
  else none

/-- The secret and hash lock computation of the create RunE: if the
hash lock flag was set, decode it (the secret stays the zero-filled
32-byte buffer of make); otherwise, if a non-empty secret string was
given, check its length against 2 times SecretLength and decode it, else
draw a fresh 32-byte secret from crypto/rand; in both of the latter
cases derive the hash lock via GetHashLock from the secret and the
uint64-converted timestamp. -/
def deriveSecretHashLock (f : CreateFlags) (entropy : Nat → Nat) :
    Except CLIError (List Nat × List Nat) :=
  if f.hashLockChanged then
    match hexDecode f.hashLockStr with
    | .error e => .error (.hexError e)
    | .ok hashLock => .ok (List.replicate 32 0, hashLock)
  else
    if f.secretStr.length > 0 then
      if f.secretStr.length ≠ 2 * SecretLength then .error .invalidSecretLength
      else
        match hexDecode f.secretStr with
        | .error e => .error (.hexError e)
        | .ok secret => .ok (secret, GetHashLock secret (goUInt64OfInt64 f.timestamp))
    else
      let secret := randRead 32 entropy
      .ok (secret, GetHashLock secret (goUInt64OfInt64 f.timestamp))

/-- The tail of the create RunE once the message is built: run
ValidateBasic, then broadcast (the broadcastOk argument is the outcome
of the external GenerateOrBroadcastMsgs collaborator); on successful
broadcast without the hash lock flag, print the secret and hash lock
block. -/
def msgStep (hashLockChanged : Bool) (secret hashLock : List Nat)
    (broadcastOk : Bool) (msg : MsgCreateHTLC) :
    Except CLIError (MsgCreateHTLC × List OutputLine) :=
  match msg.ValidateBasic with
  | some e => .error (.msgError e)
  | none =>
    if broadcastOk then
      if hashLockChanged then .ok (msg, [])
      else .ok (msg, [.warning1, .warning2, .blankLine,
        .secretAndHashLock (hexEncode secret) (hexEncode hashLock)])
    else .error .broadcastError

/-- The RunE body of GetCmdCreateHTLC: compute secret and hash lock,
build the message with the uint64-converted timestamp and time lock,
and hand over to msgStep. -/
def createHTLCRun (f : CreateFlags) (entropy : Nat → Nat) (broadcastOk : Bool) :
    Except CLIError (MsgCreateHTLC × List OutputLine) :=
  match deriveSecretHashLock f entropy with
  | .error e => .error e
  | .ok (secret, hashLock) =>
    msgStep f.hashLockChanged secret hashLock broadcastOk
      (NewMsgCreateHTLC f.sender f.To f.receiverOnOtherChain f.amount
        hashLock (goUInt64OfInt64 f.timestamp) (goUInt64OfInt64 f.timeLock))

/-- The whole create command as cobra executes it: PreRunE (preCheckCmd)
first, and RunE only if it passed. An error result means no message was
built or broadcast beyond the point of failure; in particular a
preCheckCmd failure means RunE never ran at all. -/
def runCreateCmd (f : CreateFlags) (entropy : Nat → Nat) (broadcastOk : Bool) :
    Except CLIError (MsgCreateHTLC × List OutputLine) :=
  match preCheckCmd f.secretChanged f.hashLockChanged with
  | some e => .error e
  | none => createHTLCRun f entropy broadcastOk

/-! ### The Refund transition

The keeper and the transition code are absent from the provided
sources; the Refund transition is modelled from the spec, section 4.2:
requires state Open (else HTLCNotOpen) and current height strictly
greater than the expiration height (else HTLCNotExpired); on success
the entity reaches Refunded. -/

inductive TransitionError where
  | htlcNotOpen
  | htlcExpired
  | htlcNotExpired
  | hashLockMismatch
deriving DecidableEq, Repr

/-- Modelled from the spec: the Refund transition of section 4.2
(keeper code absent from the provided sources). -/
def HTLC.Refund (h : HTLC) (currentHeight : Nat) : Except TransitionError HTLC :=
  if h.state ≠ .Open then .error .htlcNotOpen
  else if ¬ (currentHeight > h.expirationHeight) then .error .htlcNotExpired
  else .ok { h with state := .Refunded }

/-! ### Concrete fixtures used by the witness theorems -/

/-- A well-formed genesis key: 64 hex characters decoding to 32 bytes. -/
def sampleKey : List Char := List.replicate 64 '0'

/-- A key that is not valid hex. -/
def badHexKey : List Char := ['z', 'z']

/-- A valid-hex key decoding to 1 byte, not HashLockLength bytes. -/
def shortKey : List Char := ['0', '0']

/-- A well-formed Open entity. -/
def sampleHTLC : HTLC :=
  ⟨"sender1", "recipient1", "", [⟨"stake", 100⟩], [], 1000, 50, 60, .Open⟩

/-- A create invocation with neither the secret nor the hash lock flag. -/
def sampleFlags : CreateFlags :=
  ⟨"sender1", "recipient1", "", [⟨"stake", 100⟩], 1000, 50, false, [], false, []⟩

def sampleEntropy : Nat → Nat := fun i => i

def bothFlags : CreateFlags :=
  { sampleFlags with secretChanged := true, hashLockChanged := true }

/-- The secret flag supplied with an empty value. -/
def emptySecretFlags : CreateFlags := { sampleFlags with secretChanged := true }

/-- The secret flag supplied with 64 hex characters. -/
def secret64Flags : CreateFlags :=
  { sampleFlags with secretChanged := true, secretStr := List.replicate 64 'a' }

/-- The secret flag supplied with 2 hex characters, not 64. -/
def badLenSecretFlags : CreateFlags :=
  { sampleFlags with secretChanged := true, secretStr := ['a', 'b'] }

/-- Negative timestamp and time lock flag values. -/
def negFlags : CreateFlags := { sampleFlags with timestamp := -1, timeLock := -5 }

def msgSample : MsgCreateHTLC :=
  NewMsgCreateHTLC "sender1" "recipient1" "" [⟨"stake", 100⟩]
    (GetHashLock (randRead 32 sampleEntropy) (goUInt64OfInt64 1000))
    (goUInt64OfInt64 1000) (goUInt64OfInt64 50)

def outSample : List OutputLine :=
  [.warning1, .warning2, .blankLine,
   .secretAndHashLock (hexEncode (randRead 32 sampleEntropy))
     (hexEncode (GetHashLock (randRead 32 sampleEntropy) (goUInt64OfInt64 1000)))]

def msgSecret : MsgCreateHTLC :=
  NewMsgCreateHTLC "sender1" "recipient1" "" [⟨"stake", 100⟩]
    (GetHashLock (List.replicate 32 170) (goUInt64OfInt64 1000))
    (goUInt64OfInt64 1000) (goUInt64OfInt64 50)

def outSecret : List OutputLine :=
  [.warning1, .warning2, .blankLine,
   .secretAndHashLock (hexEncode (List.replicate 32 170))
     (hexEncode (GetHashLock (List.replicate 32 170) (goUInt64OfInt64 1000)))]

def msgNeg : MsgCreateHTLC :=
  NewMsgCreateHTLC "sender1" "recipient1" "" [⟨"stake", 100⟩]
    (GetHashLock (randRead 32 sampleEntropy) (goUInt64OfInt64 (-1)))
    (goUInt64OfInt64 (-1)) (goUInt64OfInt64 (-5))

def outNeg : List OutputLine :=
  [.warning1, .warning2, .blankLine,
   .secretAndHashLock (hexEncode (randRead 32 sampleEntropy))
     (hexEncode (GetHashLock (randRead 32 sampleEntropy) (goUInt64OfInt64 (-1))))]

/-! ## Helper lemmas on genesis validation -/

theorem GetHashLock_length (secret : List Nat) (timestamp : Nat) :
    (GetHashLock secret timestamp).length = HashLockLength := by
  simp [GetHashLock]

theorem validateEntries_cons (k : List Char) (h : HTLC)
    (rest : List (List Char × HTLC)) :
    validateEntries ((k, h) :: rest) =
      match genesisEntryError (k, h) with
      | some e => some e
      | none => validateEntries rest := by
  simp only [validateEntries, genesisEntryError]
  cases hd : hexDecode k with
  | error e => rfl
  | ok bs =>
    by_cases h1 : bs.length = HashLockLength
    · by_cases h2 : h.state = HTLCState.Open
      · cases hv : h.Validate <;> simp [h1, h2, hv]
      · simp [h1, h2]
    · simp [h1]

theorem genesisEntryError_eq_none_iff (p : List Char × HTLC) :
    genesisEntryError p = none ↔ genesisEntryOk p = true := by
  obtain ⟨k, h⟩ := p
  unfold genesisEntryError genesisEntryOk
  cases hd : hexDecode k with
  | error e => simp
  | ok bs =>
    by_cases h1 : bs.length = HashLockLength
    · by_cases h2 : h.state = HTLCState.Open
      · cases hv : h.Validate <;> simp [h1, h2, hv]
      · simp [h1, h2]
    · simp [h1]

theorem genesisEntryOk_eq_true_iff (p : List Char × HTLC) :
    genesisEntryOk p = true ↔
      (∃ bs, hexDecode p.1 = .ok bs ∧ bs.length = HashLockLength) ∧
      p.2.state = .Open ∧ p.2.Validate = none := by
  obtain ⟨k, h⟩ := p
  unfold genesisEntryOk
  cases hd : hexDecode k with
  | error e => simp
  | ok bs => simp [Bool.and_assoc]

theorem validateEntries_eq_none_iff (l : List (List Char × HTLC)) :
    validateEntries l = none ↔ ∀ p ∈ l, genesisEntryOk p = true := by
  induction l with
  | nil => simp [validateEntries]
  | cons p rest ih =>
    obtain ⟨k, h⟩ := p
    rw [validateEntries_cons]
    cases he : genesisEntryError (k, h) with
    | none =>
      have hok : genesisEntryOk (k, h) = true :=
        (genesisEntryError_eq_none_iff _).mp he
      show validateEntries rest = none ↔ _
      rw [ih, List.forall_mem_cons, hok]
      exact ⟨fun hA => ⟨rfl, hA⟩, fun hB => hB.2⟩
    | some e =>
      constructor
      · intro hcontra
        exact absurd hcontra (by simp)
      · intro hall
        have h0 := (genesisEntryError_eq_none_iff (k, h)).mpr
          (hall (k, h) (List.mem_cons_self _ _))
        rw [he] at h0
        simp at h0

theorem validateEntries_failFast (l : List (List Char × HTLC)) :
    validateEntries l =
      match l.find? (fun p => ! genesisEntryOk p) with
      | some p => genesisEntryError p
      | none => none := by
  induction l with
  | nil => rfl
  | cons p rest ih =>
    obtain ⟨k, h⟩ := p
    rw [validateEntries_cons]
    cases hok : genesisEntryOk (k, h) with
    | true =>
      have he : genesisEntryError (k, h) = none :=
        (genesisEntryError_eq_none_iff _).mpr hok
      simp [List.find?_cons, hok, he, ih]
    | false =>
      have he : genesisEntryError (k, h) ≠ none := by
        intro hcontra
        have h0 := (genesisEntryError_eq_none_iff _).mp hcontra
        rw [hok] at h0
        exact Bool.false_ne_true h0
      cases he2 : genesisEntryError (k, h) with
      | none => exact absurd he2 he
      | some e => simp [List.find?_cons, hok, he2]

/-! ## Claim theorems on genesis validation -/

/-- C1: genesis validation is NOT deterministic across runs. The two
snapshots below hold the same entries, i.e. they are the same Go map
presented in the two iteration orders the randomized range loop can
produce, and each snapshot contains an invalid entry; yet ValidateGenesis
returns a different fail-fast error on each, so two independent
executions on the same snapshot need not agree, and no canonical
lexical ordering of the hex keys is applied. -/
theorem ValidateGenesis_order_dependent :
    List.Perm [(badHexKey, sampleHTLC), (shortKey, sampleHTLC)]
      [(shortKey, sampleHTLC), (badHexKey, sampleHTLC)] ∧
    ValidateGenesis ⟨[(badHexKey, sampleHTLC), (shortKey, sampleHTLC)]⟩ =
      some (.hexError (.invalidByte 'z')) ∧
    ValidateGenesis ⟨[(shortKey, sampleHTLC), (badHexKey, sampleHTLC)]⟩ =
      some .invalidHashLock :=
  ⟨List.Perm.swap _ _ _, by decide, by decide⟩

/-- C2 counterexample: on a snapshot whose single entry has a
malformed-hex key, ValidateGenesis fails with the raw hex decoding
error, not with the InvalidHashLock error the claim states. -/
theorem malformed_key_error_not_invalidHashLock :
    ValidateGenesis ⟨[(badHexKey, sampleHTLC)]⟩ =
      some (.hexError (.invalidByte 'z')) ∧
    ValidateGenesis ⟨[(badHexKey, sampleHTLC)]⟩ ≠ some .invalidHashLock :=
  ⟨by decide, by decide⟩

/-- C2 amended: every snapshot containing an entry whose key is
malformed hex or decodes to a byte string of length other than
HashLockLength fails with some error; when such an entry is the first
one checked, a wrong decoded length yields the InvalidHashLock error
while malformed hex yields the raw hex decoding error instead. -/
theorem badKey_entry_fails :
    (∀ (l : List (List Char × HTLC)) (k : List Char) (h : HTLC), (k, h) ∈ l →
      ((∃ e, hexDecode k = .error e) ∨
       (∃ bs, hexDecode k = .ok bs ∧ bs.length ≠ HashLockLength)) →
      ValidateGenesis ⟨l⟩ ≠ none) ∧
    (∀ (k : List Char) (h : HTLC) (rest : List (List Char × HTLC))
       (bs : List Nat), hexDecode k = .ok bs → bs.length ≠ HashLockLength →
      ValidateGenesis ⟨(k, h) :: rest⟩ = some .invalidHashLock) ∧
    (∀ (k : List Char) (h : HTLC) (rest : List (List Char × HTLC))
       (e : HexError), hexDecode k = .error e →
      ValidateGenesis ⟨(k, h) :: rest⟩ = some (.hexError e)) := by
  refine ⟨?_, ?_, ?_⟩
  · intro l k h hmem hbad hnone
    have hok := (validateEntries_eq_none_iff l).mp hnone (k, h) hmem
    rcases hbad with ⟨e, he⟩ | ⟨bs, hbs, hlen⟩
    · simp [genesisEntryOk, he] at hok
    · simp [genesisEntryOk, hbs, hlen] at hok
  · intro k h rest bs hbs hlen
    show validateEntries ((k, h) :: rest) = _
    rw [validateEntries_cons]
    simp [genesisEntryError, hbs, hlen]
  · intro k h rest e he
    show validateEntries ((k, h) :: rest) = _
    rw [validateEntries_cons]
    simp [genesisEntryError, he]

/-- C2 amended witness: the three parts of the amended statement at
concrete inputs: a wrong-length key and a malformed-hex key. -/
theorem badKey_entry_fails_witness :
    ValidateGenesis ⟨[(shortKey, sampleHTLC)]⟩ ≠ none ∧
    ValidateGenesis ⟨[(shortKey, sampleHTLC)]⟩ = some .invalidHashLock ∧
    ValidateGenesis ⟨[(badHexKey, sampleHTLC)]⟩ =
      some (.hexError (.invalidByte 'z')) :=
  ⟨badKey_entry_fails.1 _ shortKey sampleHTLC (by decide)
      (Or.inr ⟨[0], by decide, by decide⟩),
   badKey_entry_fails.2.1 shortKey sampleHTLC [] [0] (by decide) (by decide),
   badKey_entry_fails.2.2 badHexKey sampleHTLC [] (.invalidByte 'z') (by decide)⟩

/-- C3: ValidateGenesis succeeds exactly when every entry of the
snapshot passes all three checks: its key is valid hex decoding to
exactly HashLockLength bytes, the entity state is Open, and the entity
Validate method returns no error. -/
theorem ValidateGenesis_eq_none_iff (data : GenesisState) :
    ValidateGenesis data = none ↔
      ∀ p ∈ data.pendingHTLCs,
        (∃ bs, hexDecode p.1 = .ok bs ∧ bs.length = HashLockLength) ∧
        p.2.state = .Open ∧ p.2.Validate = none := by
  rw [ValidateGenesis, validateEntries_eq_none_iff]
  exact forall_congr' fun p => imp_congr Iff.rfl (genesisEntryOk_eq_true_iff p)

/-- C3 witness: a snapshot with one fully valid entry validates. -/
theorem ValidateGenesis_eq_none_iff_witness :
    ValidateGenesis ⟨[(sampleKey, sampleHTLC)]⟩ = none := by
  refine (ValidateGenesis_eq_none_iff _).mpr ?_
  intro p hp
  simp only [List.mem_singleton] at hp
  subst hp
  exact ⟨⟨List.replicate 32 0, by decide, by decide⟩, rfl, by decide⟩

/-- C4: validation is fail-fast: the result of ValidateGenesis is
exactly the error of the first entry, in iteration order, that violates
a check (none when no entry does); at most one error is ever returned
and no violation past the first contributes to the result. -/
theorem ValidateGenesis_failFast (data : GenesisState) :
    ValidateGenesis data =
      match data.pendingHTLCs.find? (fun p => ! genesisEntryOk p) with
      | some p => genesisEntryError p
      | none => none := by
  obtain ⟨l⟩ := data
  exact validateEntries_failFast l

/-- C4 witness: on a snapshot whose first violating entry has a
wrong-length key followed by a malformed-hex entry, the returned error
is that of the first violating entry. -/
theorem ValidateGenesis_failFast_witness :
    ValidateGenesis ⟨[(sampleKey, sampleHTLC), (shortKey, sampleHTLC),
      (badHexKey, sampleHTLC)]⟩ = some .invalidHashLock := by
  rw [ValidateGenesis_failFast]
  decide

/-- C9: the default genesis state, the empty pending map, validates. -/
theorem DefaultGenesisState_validates :
    ValidateGenesis DefaultGenesisState = none := rfl

/-! ## Claim theorems on the Refund transition -/

/-- C5 counterexample: on an Open, never-claimed entity whose expiration
height is 60, Refund at current height exactly 60 fails HTLCNotExpired
rather than succeeding, refuting the part of the claim that refund at
exactly the expiration height succeeds (the success condition is
strictly current height greater than expiration height). -/
theorem Refund_at_expiration_height_fails :
    sampleHTLC.state = .Open ∧ sampleHTLC.secret = [] ∧
    sampleHTLC.expirationHeight = 60 ∧
    HTLC.Refund sampleHTLC 60 = .error .htlcNotExpired :=
  ⟨rfl, rfl, rfl, by decide⟩

/-- C5 amended: for every entity in state Open, the Refund transition
succeeds, reaching Refunded, exactly when the current height is
strictly greater than the expiration height, and fails HTLCNotExpired
whenever the current height is at most the expiration height; in
particular Refund at exactly the expiration height fails. -/
theorem Refund_iff_strictly_expired (h : HTLC) (c : Nat)
    (hOpen : h.state = .Open) :
    (HTLC.Refund h c = .ok { h with state := .Refunded } ↔
      h.expirationHeight < c) ∧
    (c ≤ h.expirationHeight → HTLC.Refund h c = .error .htlcNotExpired) := by
  unfold HTLC.Refund
  rw [hOpen]
  constructor
  · by_cases hc : h.expirationHeight < c
    · simp [hc]
    · simp [hc]
  · intro hle
    simp [Nat.not_lt.mpr hle]

/-- C5 amended witness: on the sample Open entity with expiration
height 60, Refund at height 61 succeeds and Refund at height 60 fails
HTLCNotExpired. -/
theorem Refund_iff_strictly_expired_witness :
    HTLC.Refund sampleHTLC 61 = .ok { sampleHTLC with state := .Refunded } ∧
    HTLC.Refund sampleHTLC 60 = .error .htlcNotExpired :=
  ⟨(Refund_iff_strictly_expired sampleHTLC 61 rfl).1.mpr (by decide),
   (Refund_iff_strictly_expired sampleHTLC 60 rfl).2 (by decide)⟩

/-! ## Helper lemmas on the create command -/

/-- When at most one of the two flags is set, preCheckCmd passes and the
command pipeline is the RunE body. -/
theorem runCreateCmd_eq_run (f : CreateFlags) (entropy : Nat → Nat) (b : Bool)
    (h : f.secretChanged = false ∨ f.hashLockChanged = false) :
    runCreateCmd f entropy b = createHTLCRun f entropy b := by
  unfold runCreateCmd preCheckCmd
  rcases h with h | h <;> rw [h] <;> simp

/-- createHTLCRun reduced past a successful secret derivation. -/
theorem createHTLCRun_eq (f : CreateFlags) (entropy : Nat → Nat) (b : Bool)
    (s hl : List Nat) (hd : deriveSecretHashLock f entropy = .ok (s, hl)) :
    createHTLCRun f entropy b =
      msgStep f.hashLockChanged s hl b
        (NewMsgCreateHTLC f.sender f.To f.receiverOnOtherChain f.amount
          hl (goUInt64OfInt64 f.timestamp) (goUInt64OfInt64 f.timeLock)) := by
  unfold createHTLCRun
  rw [hd]

/-- With neither flag supplied, the derivation draws the random secret
and derives the hash lock from it. -/
theorem deriveSecretHashLock_random (f : CreateFlags) (entropy : Nat → Nat)
    (hh : f.hashLockChanged = false) (hs : f.secretStr = []) :
    deriveSecretHashLock f entropy =
      .ok (randRead 32 entropy,
        GetHashLock (randRead 32 entropy) (goUInt64OfInt64 f.timestamp)) := by
  unfold deriveSecretHashLock
  rw [hh, hs]
  simp

/-- With a supplied secret of the right length that decodes, the
derivation decodes it and derives the hash lock from it. -/
theorem deriveSecretHashLock_secret (f : CreateFlags) (entropy : Nat → Nat)
    (s : List Nat) (hh : f.hashLockChanged = false)
    (hlen : f.secretStr.length = 2 * SecretLength)
    (hdec : hexDecode f.secretStr = .ok s) :
    deriveSecretHashLock f entropy =
      .ok (s, GetHashLock s (goUInt64OfInt64 f.timestamp)) := by
  unfold deriveSecretHashLock
  rw [hh, hdec]
  simp [hlen, SecretLength]

/-- With a supplied non-empty secret of any other length, the
derivation fails with the length error. -/
theorem deriveSecretHashLock_badLen (f : CreateFlags) (entropy : Nat → Nat)
    (hh : f.hashLockChanged = false) (hne : f.secretStr ≠ [])
    (hlen : f.secretStr.length ≠ 2 * SecretLength) :
    deriveSecretHashLock f entropy = .error .invalidSecretLength := by
  unfold deriveSecretHashLock
  rw [hh]
  have hpos : 0 < f.secretStr.length := List.length_pos.mpr hne
  simp [hpos, hlen]

/-- A successful msgStep returns exactly the message it was given. -/
theorem msgStep_ok_msg (hlc : Bool) (s hl : List Nat) (b : Bool)
    (msg m : MsgCreateHTLC) (o : List OutputLine)
    (h : msgStep hlc s hl b msg = .ok (m, o)) : m = msg := by
  unfold msgStep at h
  split at h
  · simp at h
  · split at h
    · split at h
      · injection h with h0
        injection h0 with h1 h2
        exact h1.symm
      · injection h with h0
        injection h0 with h1 h2
        exact h1.symm
    · simp at h

/-- A successful msgStep with the hash lock flag unset returns the
given message together with the four printed lines, the secret line
among them exactly once. -/
theorem msgStep_false_ok (s hl : List Nat) (b : Bool)
    (msg m : MsgCreateHTLC) (o : List OutputLine)
    (h : msgStep false s hl b msg = .ok (m, o)) :
    m = msg ∧ o = [.warning1, .warning2, .blankLine,
      .secretAndHashLock (hexEncode s) (hexEncode hl)] := by
  unfold msgStep at h
  split at h
  · simp at h
  · split at h
    · simp at h
      exact ⟨h.1.symm, h.2.symm⟩
    · simp at h

/-! ## Claim theorems on the create command -/

/-- C6: an invocation setting both the secret and the hash lock flag is
rejected: preCheckCmd fails, and since cobra runs PreRunE before RunE,
the whole command pipeline returns that error without entering RunE, so
no create message is built or broadcast. -/
theorem create_rejects_both_flags (f : CreateFlags) (entropy : Nat → Nat)
    (b : Bool) (hs : f.secretChanged = true) (hh : f.hashLockChanged = true) :
    preCheckCmd f.secretChanged f.hashLockChanged =
      some .bothSecretAndHashLock ∧
    runCreateCmd f entropy b = .error .bothSecretAndHashLock := by
  have hpre : preCheckCmd f.secretChanged f.hashLockChanged =
      some .bothSecretAndHashLock := by
    unfold preCheckCmd
    rw [hs, hh]
    rfl
  refine ⟨hpre, ?_⟩
  unfold runCreateCmd
  rw [hpre]

/-- C6 witness: the rejection at a concrete invocation with both
flags set. -/
theorem create_rejects_both_flags_witness :
    runCreateCmd bothFlags sampleEntropy true =
      .error .bothSecretAndHashLock :=
  (create_rejects_both_flags bothFlags sampleEntropy true rfl rfl).2

/-- C7: when neither the secret nor the hash lock flag is supplied, a
fresh secret of exactly SecretLength bytes is drawn from the random
oracle, the hash lock of the broadcast message is derived from it and
the uint64 timestamp via GetHashLock, and on successful broadcast the
output holds the secret-and-hash-lock line exactly once (randomness
quality of crypto/rand is modelled by the entropy oracle). -/
theorem create_generates_random_secret (f : CreateFlags)
    (entropy : Nat → Nat) (msg : MsgCreateHTLC) (out : List OutputLine)
    (hh : f.hashLockChanged = false) (hs : f.secretStr = [])
    (hrun : runCreateCmd f entropy true = .ok (msg, out)) :
    (randRead 32 entropy).length = SecretLength ∧
    msg.hashLock =
      GetHashLock (randRead 32 entropy) (goUInt64OfInt64 f.timestamp) ∧
    out = [.warning1, .warning2, .blankLine,
      .secretAndHashLock (hexEncode (randRead 32 entropy))
        (hexEncode (GetHashLock (randRead 32 entropy)
          (goUInt64OfInt64 f.timestamp)))] ∧
    List.countP (fun o => isSecretOutput o) out = 1 := by
  rw [runCreateCmd_eq_run f entropy true (Or.inr hh),
    createHTLCRun_eq f entropy true _ _
      (deriveSecretHashLock_random f entropy hh hs), hh] at hrun
  obtain ⟨h1, h2⟩ := msgStep_false_ok _ _ _ _ _ _ hrun
  subst h1
  subst h2
  exact ⟨by simp [randRead, SecretLength], rfl, rfl, rfl⟩

/-- C7 witness: a concrete run with neither flag set broadcasts the
message carrying the hash lock of the generated secret and prints the
secret line exactly once. -/
theorem create_generates_random_secret_witness :
    runCreateCmd sampleFlags sampleEntropy true = .ok (msgSample, outSample) ∧
    (randRead 32 sampleEntropy).length = SecretLength ∧
    msgSample.hashLock = GetHashLock (randRead 32 sampleEntropy)
      (goUInt64OfInt64 sampleFlags.timestamp) ∧
    List.countP (fun o => isSecretOutput o) outSample = 1 := by
  have hrun : runCreateCmd sampleFlags sampleEntropy true =
      .ok (msgSample, outSample) := by rfl
  have h := create_generates_random_secret sampleFlags sampleEntropy
    msgSample outSample rfl rfl hrun
  exact ⟨hrun, h.1, h.2.1, h.2.2.2⟩

/-- C8 counterexample: the secret flag supplied with an empty value
(hex length 0, which is not 2 times SecretLength) is NOT rejected: the
command falls through to random generation and successfully builds and
broadcasts a message. -/
theorem empty_secret_value_not_rejected :
    emptySecretFlags.secretChanged = true ∧
    emptySecretFlags.secretStr.length ≠ 2 * SecretLength ∧
    runCreateCmd emptySecretFlags sampleEntropy true =
      .ok (msgSample, outSample) :=
  ⟨rfl, by decide, by rfl⟩

/-- C8 amended: with the hash lock flag unset, a supplied secret of hex
length exactly 2 times SecretLength that decodes yields a message whose
hash lock is GetHashLock of the decoded secret and the uint64
timestamp; a supplied NON-EMPTY secret of any other hex length is
rejected with the secret length error before any message is built; a
supplied secret whose value trims to the empty string is treated as
absent and falls through to random generation. -/
theorem create_by_secret_behaviour :
    (∀ (f : CreateFlags) (entropy : Nat → Nat) (b : Bool)
       (msg : MsgCreateHTLC) (out : List OutputLine) (s : List Nat),
       f.hashLockChanged = false → f.secretStr.length = 2 * SecretLength →
       hexDecode f.secretStr = .ok s →
       runCreateCmd f entropy b = .ok (msg, out) →
       msg.hashLock = GetHashLock s (goUInt64OfInt64 f.timestamp)) ∧
    (∀ (f : CreateFlags) (entropy : Nat → Nat) (b : Bool),
       f.hashLockChanged = false → f.secretStr ≠ [] →
       f.secretStr.length ≠ 2 * SecretLength →
       runCreateCmd f entropy b = .error .invalidSecretLength) ∧
    (∀ (f : CreateFlags) (entropy : Nat → Nat)
       (msg : MsgCreateHTLC) (out : List OutputLine),
       f.hashLockChanged = false → f.secretStr = [] →
       runCreateCmd f entropy true = .ok (msg, out) →
       msg.hashLock = GetHashLock (randRead 32 entropy)
         (goUInt64OfInt64 f.timestamp)) := by
  refine ⟨?_, ?_, ?_⟩
  · intro f entropy b msg out s hh hlen hdec hrun
    rw [runCreateCmd_eq_run f entropy b (Or.inr hh),
      createHTLCRun_eq f entropy b _ _
        (deriveSecretHashLock_secret f entropy s hh hlen hdec)] at hrun
    have hm := msgStep_ok_msg _ _ _ _ _ _ _ hrun
    subst hm
    rfl
  · intro f entropy b hh hne hlen
    rw [runCreateCmd_eq_run f entropy b (Or.inr hh)]
    unfold createHTLCRun
    rw [deriveSecretHashLock_badLen f entropy hh hne hlen]
  · intro f entropy msg out hh hs hrun
    rw [runCreateCmd_eq_run f entropy true (Or.inr hh),
      createHTLCRun_eq f entropy true _ _
        (deriveSecretHashLock_random f entropy hh hs), hh] at hrun
    obtain ⟨h1, h2⟩ := msgStep_false_ok _ _ _ _ _ _ hrun
    subst h1
    rfl

/-- C8 amended witness: the three parts at concrete inputs: a 64-hex
secret is decoded and its hash lock derived; a 2-hex secret is rejected
with the length error; the empty-value invocation generates randomly. -/
theorem create_by_secret_behaviour_witness :
    runCreateCmd secret64Flags sampleEntropy true =
      .ok (msgSecret, outSecret) ∧
    msgSecret.hashLock = GetHashLock (List.replicate 32 170)
      (goUInt64OfInt64 secret64Flags.timestamp) ∧
    runCreateCmd badLenSecretFlags sampleEntropy true =
      .error .invalidSecretLength ∧
    msgSample.hashLock = GetHashLock (randRead 32 sampleEntropy)
      (goUInt64OfInt64 sampleFlags.timestamp) := by
  have hrun1 : runCreateCmd secret64Flags sampleEntropy true =
      .ok (msgSecret, outSecret) := by rfl
  have hrun2 : runCreateCmd sampleFlags sampleEntropy true =
      .ok (msgSample, outSample) := by rfl
  refine ⟨hrun1, ?_, ?_, ?_⟩
  · exact create_by_secret_behaviour.1 secret64Flags sampleEntropy true
      msgSecret outSecret (List.replicate 32 170) rfl (by decide)
      (by decide) hrun1
  · exact create_by_secret_behaviour.2.1 badLenSecretFlags sampleEntropy
      true rfl (by decide) (by decide)
  · exact create_by_secret_behaviour.2.2 sampleFlags sampleEntropy
      msgSample outSample rfl rfl hrun2

/-- C10: the create command performs no range check on the timestamp
and time lock flag values: every message a successful run broadcasts
carries the int64 flag values converted to uint64 by reduction modulo
2^64, and every negative value v in the int64 range becomes the huge
positive value v + 2^64, at least 2^63, instead of being rejected. -/
theorem create_no_range_check :
    (∀ (f : CreateFlags) (entropy : Nat → Nat) (b : Bool)
       (msg : MsgCreateHTLC) (out : List OutputLine),
       runCreateCmd f entropy b = .ok (msg, out) →
       msg.timestamp = goUInt64OfInt64 f.timestamp ∧
       msg.timeLock = goUInt64OfInt64 f.timeLock) ∧
    (∀ v : Int, -(2 ^ 63) ≤ v → v < 0 →
       goUInt64OfInt64 v = (v + 2 ^ 64).toNat ∧
       2 ^ 63 ≤ goUInt64OfInt64 v) := by
  constructor
  · intro f entropy b msg out hrun
    unfold runCreateCmd createHTLCRun at hrun
    split at hrun
    · simp at hrun
    · split at hrun
      · simp at hrun
      · have hm := msgStep_ok_msg _ _ _ _ _ _ _ hrun
        subst hm
        exact ⟨rfl, rfl⟩
  · intro v h1 h2
    have e1 : (2 : Int) ^ 64 = 18446744073709551616 := by norm_num
    have e2 : (2 : Int) ^ 63 = 9223372036854775808 := by norm_num
    have e3 : (2 : Nat) ^ 63 = 9223372036854775808 := by norm_num
    unfold goUInt64OfInt64
    rw [e2] at h1
    rw [e1, e3]
    constructor <;> omega

/-- C10 witness: a concrete invocation with timestamp flag -1 and time
lock flag -5 is not rejected; its broadcast message carries the values
reduced modulo 2^64, and the conversion of -1 is -1 + 2^64, above 2^63. -/
theorem create_no_range_check_witness :
    runCreateCmd negFlags sampleEntropy true = .ok (msgNeg, outNeg) ∧
    msgNeg.timestamp = goUInt64OfInt64 negFlags.timestamp ∧
    msgNeg.timeLock = goUInt64OfInt64 negFlags.timeLock ∧
    goUInt64OfInt64 (-1) = ((-1 : Int) + 2 ^ 64).toNat ∧
    2 ^ 63 ≤ goUInt64OfInt64 (-1) := by
  have hrun : runCreateCmd negFlags sampleEntropy true =
      .ok (msgNeg, outNeg) := by rfl
  have h1 := create_no_range_check.1 negFlags sampleEntropy true
    msgNeg outNeg hrun
  have h2 := create_no_range_check.2 (-1) (by norm_num) (by norm_num)
  exact ⟨hrun, h1.1, h1.2, h2.1, h2.2⟩

end HTLCSpec
